import Mathlib

/-!
Verification of the caption-command parser and filter-expression builder of
`ffmpeg-overlay-text.py`, shallowly embedded over `List Char` (Python `str`
values are modelled as lists of characters so that index arithmetic of
`str.find` / `str.rfind` / slicing is explicit).

The embedding mirrors the source functions:
  * `parse_cmd_file` (source lines 107-175) and its per-line body `parse_line`,
    with the field-handling tail split into `parse_fields`;
  * `make_drawtext_string` (lines 35-60), `make_drawtext_array` (62-72),
    `make_drawtext_array_string` (74-80), `make_full_cmd_arr` (82-105).
Python exceptions are modelled with `Except`.
-/

/-- The single-quote character `'` (code 39). -/
def sqc : Char := Char.ofNat 39

/-- The double-quote character (code 34). -/
def dqc : Char := Char.ofNat 34

/-- The backslash character (code 92). -/
def bsc : Char := Char.ofNat 92

/-- Python `str.strip()`: drop whitespace from both ends. -/
def pyStrip (l : List Char) : List Char :=
  ((l.dropWhile Char.isWhitespace).reverse.dropWhile Char.isWhitespace).reverse

/-- Python `str.find(c)` restricted to a one-character needle: index of the
first occurrence, `none` when absent (Python returns `-1`). -/
def pyFind : List Char → Char → Option Nat
  | [], _ => none
  | a :: l, c => if a = c then some 0 else (pyFind l c).map (· + 1)

/-- Python `str.rfind(c)` for a one-character needle: index of the last
occurrence, `none` when absent. -/
def pyRfind : List Char → Char → Option Nat
  | [], _ => none
  | a :: l, c =>
    match pyRfind l c with
    | some k => some (k + 1)
    | none => if a = c then some 0 else none

/-- Python slice `l[a:b]` for `0 ≤ a ≤ b` (clamped at the ends, as in Python). -/
def pySlice (l : List Char) (a b : Nat) : List Char :=
  (l.drop a).take (b - a)

/-- Python `str.split(c)` for a one-character separator: always returns
`count(c) + 1` parts, empty parts included. -/
def pySplit (c : Char) : List Char → List (List Char)
  | [] => [[]]
  | a :: l =>
    if a = c then [] :: pySplit c l
    else
      match pySplit c l with
      | r :: rs => (a :: r) :: rs
      | [] => [[a]]

/-- Python `str.upper()` (the script only ever uppercases ASCII tokens). -/
def pyUpper (l : List Char) : List Char := l.map Char.toUpper

/-- Value of a nonempty all-digit string, `none` on any non-digit. -/
def digitsVal (ds : List Char) : Option Nat :=
  ds.foldl (fun acc c => acc.bind fun n =>
    if c.isDigit then some (10 * n + (c.toNat - 48)) else none) (some 0)

/-- Python `int(s)`: strips surrounding whitespace, allows one leading sign,
then requires a nonempty digit string.  (Underscore separators and non-ASCII
digits, which CPython also accepts, are not modelled; no claim involves them.) -/
def pyInt (l : List Char) : Option Int :=
  match pyStrip l with
  | [] => none
  | c :: rest =>
    if c = '-' then
      match rest with
      | [] => none
      | _ => (digitsVal rest).map fun n => -(n : Int)
    else if c = '+' then
      match rest with
      | [] => none
      | _ => (digitsVal rest).map fun n => (n : Int)
    else (digitsVal (c :: rest)).map fun n => (n : Int)

/-- Decimal rendering of an integer, as Python `'%d' % i`. -/
def intChars (i : Int) : List Char :=
  if i < 0 then '-' :: Nat.toDigits 10 (-i).toNat else Nat.toDigits 10 i.toNat

/-- Source line 32: `BOTTOM_CENTER = 1` (the source uses plain ints, not an
enum, so the model keeps `position` as an `Int`). -/
def BOTTOM_CENTER : Int := 1

/-- Source line 33: `TOP_CENTER = 2`. -/
def TOP_CENTER : Int := 2

/-- One parsed caption line: the dictionary built at source lines 162-169. -/
structure Caption where
  msg : List Char
  color : List Char
  size : Int
  position : Int
  start_sec : Int
  end_sec : Int
  deriving DecidableEq, Repr

/-- Which `raise` of `parse_cmd_file` fired (source lines 130-160). -/
inductive ParseRule where
  /-- line 130: message must be first field and either single or double quoted -/
  | missingOrUnmatchedQuote
  /-- line 140: expected no characters before message -/
  | unexpectedPre
  /-- line 144: expected a colon after end of message -/
  | missingFieldSep
  /-- line 149: expected exactly 3 colon separated fields after message -/
  | wrongFieldCount
  /-- line 154: `int(parts[1].strip())` raised -/
  | invalidSize
  /-- line 157: position must be either TOP or BOTTOM -/
  | invalidPosition
  /-- line 160: time range did not split into exactly two integers -/
  | invalidTimeRange
  deriving DecidableEq, Repr

/-- The wrapped failure of source line 173: the violated rule together with
the (stripped, as in the source) text of the offending line. -/
structure ParseError where
  rule : ParseRule
  line : List Char
  deriving DecidableEq, Repr

/-- Source line 39. -/
def fontfile_str : List Char :=
  "fontfile=/System/Library/Fonts/Supplemental/Verdana.ttf".data

/-- Source line 40: bottom-center anchor. -/
def bottom_center_str : List Char := "x=(w-text_w)/2:y=h-th-40".data

/-- Source line 41: top-center anchor. -/
def top_center_str : List Char := "x=(w-text_w)/2:y=40".data

/-- Source line 42: fixed bounding-box styling. -/
def box_str : List Char := "box=1:boxcolor=black@0.5:boxborderw=5".data

/-- Source lines 47/58: `enable='between(t,%d,%d)'`. -/
def enable_str (s e : Int) : List Char :=
  "enable=".data ++ [sqc] ++ "between(t,".data ++ intChars s ++ [','] ++
    intChars e ++ [')'] ++ [sqc]

/-- Source line 56: the drawtext body before the optional enable clause.
Note the source interpolates the whole of line 39 (which already begins with
`fontfile=`) after a literal `fontfile=`, so the prefix is doubled. -/
def dtBase (msg color : List Char) (size : Int) (pos_str : List Char) : List Char :=
  "drawtext=fontfile=".data ++ fontfile_str ++ ":text=".data ++ [sqc] ++ msg ++
    [sqc] ++ [':'] ++ ("fontcolor=".data ++ color) ++ [':'] ++
    ("fontsize=".data ++ intChars size) ++ [':'] ++ box_str ++ [':'] ++ pos_str

/-- Source lines 35-60, `make_drawtext_string`.  With exactly one of the two
bounds `None` the source crashes at line 47 interpolating `None` into `%d`
(a `TypeError`, before the position check); with both present or both absent
the position check of lines 49-54 runs next, and the enable clause of lines
57-59 is appended exactly when both bounds are present. -/
def make_drawtext_string (msg color : List Char) (size position : Int)
    (start_sec end_sec : Option Int) : Except (List Char) (List Char) :=
  match start_sec, end_sec with
  | some s, some e =>
    if position = BOTTOM_CENTER then
      .ok (dtBase msg color size bottom_center_str ++ [':'] ++ enable_str s e)
    else if position = TOP_CENTER then
      .ok (dtBase msg color size top_center_str ++ [':'] ++ enable_str s e)
    else .error ("Unknown position ".data ++ [sqc] ++ intChars position ++ [sqc])
  | none, none =>
    if position = BOTTOM_CENTER then .ok (dtBase msg color size bottom_center_str)
    else if position = TOP_CENTER then .ok (dtBase msg color size top_center_str)
    else .error ("Unknown position ".data ++ [sqc] ++ intChars position ++ [sqc])
  | _, _ => .error "TypeError: %d format requires a number, not NoneType".data

/-- The call of source line 71: one stage from one caption record (the parser
always stores both time bounds, so they are passed as `some`). -/
def captionStage (c : Caption) : Except (List Char) (List Char) :=
  make_drawtext_string c.msg c.color c.size c.position (some c.start_sec) (some c.end_sec)

/-- Source lines 62-72, `make_drawtext_array`. -/
def make_drawtext_array (args : List Caption) : Except (List Char) (List (List Char)) :=
  if args.isEmpty then .error "No arguments passed".data
  else args.mapM captionStage

/-- Source lines 74-80, `make_drawtext_array_string`: comma-join the stages. -/
def make_drawtext_array_string (args : List Caption) : Except (List Char) (List Char) :=
  (make_drawtext_array args).map (List.intercalate [','])

/-- Source lines 82-105, `make_full_cmd_arr`.  `output_filename = none`
selects the `ffplay` preview form; otherwise `ffmpeg`, with `-y` inserted
right after the tool name exactly when `overwrite_outputfile` is true. -/
def make_full_cmd_arr (input_filename : List Char) (output_filename : Option (List Char))
    (args : List Caption) (overwrite_outputfile : Bool) :
    Except (List Char) (List (List Char)) :=
  match make_drawtext_array_string args with
  | .error e => .error e
  | .ok f =>
    let vf := [dqc] ++ f ++ [dqc]
    match output_filename with
    | none => .ok (["ffplay".data, "-i".data, input_filename, "-vf".data, vf])
    | some o =>
      .ok (["ffmpeg".data] ++ (if overwrite_outputfile then ["-y".data] else []) ++
        ["-i".data, input_filename, "-vf".data, vf, "-codec:a".data, "copy".data, o])

/-- Source line 127: first quote position, single quote taking precedence
whenever one occurs anywhere in the line. -/
def firstQuoteIdx (l : List Char) : Option Nat :=
  match pyFind l sqc with
  | some i => some i
  | none => pyFind l dqc

/-- Source line 128: last quote position, same precedence rule. -/
def lastQuoteIdx (l : List Char) : Option Nat :=
  match pyRfind l sqc with
  | some j => some j
  | none => pyRfind l dqc

/-- Source lines 143-169: handling of the text after the closing quote
(`post_msg`), given the already-extracted message. -/
def parse_fields (msg post : List Char) : Except ParseRule Caption :=
  match post with
  | ':' :: rest =>
    -- line 148 raises unless the colon count (after stripping the separator) is exactly 3
    if (pyStrip rest).count ':' = 3 then
      match pySplit ':' (pyStrip rest) with
      | [p0, p1, p2, p3] =>
        match pyInt (pyStrip p1) with
        | none => .error .invalidSize
        | some size =>
          -- line 156 raises unless the uppercased token is TOP or BOTTOM
          if pyUpper (pyStrip p2) = "TOP".data ∨ pyUpper (pyStrip p2) = "BOTTOM".data then
            match pySplit '-' (pyStrip p3) with
            | [t0, t1] =>
              match pyInt t0, pyInt t1 with
              | some s, some e =>
                .ok ⟨msg, pyStrip p0, size,
                  if pyUpper (pyStrip p2) = "BOTTOM".data then BOTTOM_CENTER
                  else TOP_CENTER, s, e⟩
              | _, _ => .error .invalidTimeRange
            | _ => .error .invalidTimeRange
          else .error .invalidPosition
      | _ => .error .wrongFieldCount
    else .error .wrongFieldCount
  | _ => .error .missingFieldSep

/-- Source lines 121-170: one iteration of the line loop.  `ok none` is a
skipped comment/blank line, `ok (some c)` a parsed caption. -/
def parse_line (raw : List Char) : Except ParseRule (Option Caption) :=
  if pyStrip raw = [] then .ok none
  else if (pyStrip raw).head? = some '#' then .ok none
  else
    match firstQuoteIdx (pyStrip raw), lastQuoteIdx (pyStrip raw) with
    | some i, some j =>
      if i = j then .error .missingOrUnmatchedQuote
      -- line 139 raises unless nothing precedes the opening quote
      else if pyStrip ((pyStrip raw).take i) = [] then
        (parse_fields (pySlice (pyStrip raw) (i + 1) j)
          (pyStrip ((pyStrip raw).drop (j + 1)))).map some
      else .error .unexpectedPre
    | _, _ => .error .missingOrUnmatchedQuote

/-- Source lines 107-175, `parse_cmd_file` over the file's lines: first
failure aborts the whole file, wrapped with the (stripped) offending line. -/
def parse_cmd_file : List (List Char) → Except ParseError (List Caption)
  | [] => .ok []
  | l :: ls =>
    match parse_line l with
    | .error r => .error ⟨r, pyStrip l⟩
    | .ok none => parse_cmd_file ls
    | .ok (some c) => (parse_cmd_file ls).map (c :: ·)

/-- The caption a line contributes, if any (used to state order preservation). -/
def parsedCaption? (l : List Char) : Option Caption :=
  match parse_line l with
  | .ok (some c) => some c
  | _ => none

example : pyStrip "  ab ".data = "ab".data := by decide
example : pyFind "abca".data 'a' = some 0 := by decide
example : pyRfind "abca".data 'a' = some 3 := by decide
example : pySplit ':' "red:48".data = ["red".data, "48".data] := by decide
example : pyInt " -51 ".data = some (-51) := by decide
example : pyInt "4x".data = none := by decide
example : intChars (-5) = ['-', '5'] := by decide
example : intChars 48 = ['4', '8'] := by decide

lemma pyFind_eq_none {l : List Char} {c : Char} : pyFind l c = none ↔ c ∉ l := by
  induction l with
  | nil => simp [pyFind]
  | cons a t ih =>
    by_cases h : a = c
    · subst h; simp [pyFind]
    · simp [pyFind, h, ih, Option.map_eq_none']
      intro _ hca
      exact h hca.symm

lemma pyRfind_eq_none {l : List Char} {c : Char} : pyRfind l c = none ↔ c ∉ l := by
  induction l with
  | nil => simp [pyRfind]
  | cons a t ih =>
    cases hh : pyRfind t c with
    | some k =>
      have hmem : c ∈ t := by
        by_contra hc
        rw [ih.mpr hc] at hh
        cases hh
      simp [pyRfind, hh, hmem]
    | none =>
      have ht : c ∉ t := ih.mp hh
      by_cases h : a = c
      · subst h; simp [pyRfind, hh]
      · have h' : ¬c = a := fun hc => h hc.symm
        simp [pyRfind, hh, h, ht, h']

lemma pyRfind_append_none {l₁ l₂ : List Char} {c : Char} (h : c ∉ l₂) :
    pyRfind (l₁ ++ l₂) c = pyRfind l₁ c := by
  induction l₁ with
  | nil => simp [pyRfind_eq_none.mpr h, pyRfind]
  | cons a t ih => simp only [List.cons_append, pyRfind, List.append_eq, ih]

lemma pyRfind_append_some {l₁ l₂ : List Char} {c : Char} {k : Nat}
    (h : pyRfind l₂ c = some k) : pyRfind (l₁ ++ l₂) c = some (l₁.length + k) := by
  induction l₁ with
  | nil => simpa using h
  | cons a t ih =>
    simp only [List.cons_append, pyRfind, List.append_eq, ih, List.length_cons,
      Option.some.injEq]
    omega

lemma dropWhileWS_eq_self {m : List Char}
    (hm : ∀ a, m.head? = some a → a.isWhitespace = false) :
    m.dropWhile Char.isWhitespace = m := by
  cases m with
  | nil => rfl
  | cons a t => rw [List.dropWhile_cons, hm a rfl]; simp

lemma pyStrip_eq_self {l : List Char}
    (h1 : ∀ a, l.head? = some a → a.isWhitespace = false)
    (h2 : ∀ a, l.getLast? = some a → a.isWhitespace = false) :
    pyStrip l = l := by
  unfold pyStrip
  rw [dropWhileWS_eq_self h1]
  rw [dropWhileWS_eq_self (m := l.reverse)
    (by intro a ha; rw [List.head?_reverse] at ha; exact h2 a ha)]
  exact List.reverse_reverse l

lemma pyStrip_quoted (msg rest : List Char) (c : Char) (hc : rest.getLast? = some c)
    (hw : c.isWhitespace = false) :
    pyStrip (sqc :: (msg ++ sqc :: rest)) = sqc :: (msg ++ sqc :: rest) := by
  apply pyStrip_eq_self
  · intro a ha
    rw [List.head?_cons, Option.some.injEq] at ha
    subst ha; decide
  · intro a ha
    rw [show sqc :: (msg ++ sqc :: rest) = (sqc :: msg) ++ (sqc :: rest) by simp,
      List.getLast?_append,
      show (sqc :: rest).getLast? = some c by
        rw [show sqc :: rest = [sqc] ++ rest by rfl, List.getLast?_append, hc]; rfl] at ha
    simp only [Option.or_some, Option.some.injEq] at ha
    subst ha; exact hw

lemma pySplit_ne_nil (c : Char) (l : List Char) : pySplit c l ≠ [] := by
  induction l with
  | nil => simp [pySplit]
  | cons a t ih =>
    by_cases h : a = c
    · simp [pySplit, h]
    · cases hh : pySplit c t with
      | nil => exact absurd hh ih
      | cons r rs => simp [pySplit, h, hh]

lemma pySplit_no_sep {c : Char} {l : List Char} (h : c ∉ l) : pySplit c l = [l] := by
  induction l with
  | nil => rfl
  | cons a t ih =>
    have ha : ¬a = c := fun hac => h (hac ▸ List.mem_cons_self a t)
    have ht : c ∉ t := fun hct => h (List.mem_cons_of_mem a hct)
    simp [pySplit, ha, ih ht]

lemma pySplit_append {c : Char} {xs ys : List Char} (h : c ∉ xs) :
    pySplit c (xs ++ c :: ys) = xs :: pySplit c ys := by
  induction xs with
  | nil => simp [pySplit]
  | cons a t ih =>
    have ha : ¬a = c := fun hac => h (hac ▸ List.mem_cons_self a t)
    have ht : c ∉ t := fun hct => h (List.mem_cons_of_mem a hct)
    simp [pySplit, ha, ih ht]

lemma pyRfind_quoted (msg rest : List Char) (h2 : sqc ∉ rest) :
    pyRfind (sqc :: (msg ++ sqc :: rest)) sqc = some (msg.length + 1) := by
  have hinner : pyRfind (sqc :: rest) sqc = some 0 := by
    simp [pyRfind, pyRfind_eq_none.mpr h2]
  have happ : pyRfind (msg ++ sqc :: rest) sqc = some (msg.length + 0) :=
    pyRfind_append_some hinner
  simp [pyRfind, happ]

lemma parse_line_quoted (msg rest : List Char) (h2 : sqc ∉ rest)
    (hstrip : pyStrip (sqc :: (msg ++ sqc :: rest)) = sqc :: (msg ++ sqc :: rest)) :
    parse_line (sqc :: (msg ++ sqc :: rest)) =
      (parse_fields msg (pyStrip rest)).map some := by
  have hf : firstQuoteIdx (sqc :: (msg ++ sqc :: rest)) = some 0 := by
    simp [firstQuoteIdx, pyFind]
  have hl : lastQuoteIdx (sqc :: (msg ++ sqc :: rest)) = some (msg.length + 1) := by
    simp [lastQuoteIdx, pyRfind_quoted msg rest h2]
  have hslice : pySlice (sqc :: (msg ++ sqc :: rest)) 1 (msg.length + 1) = msg := by
    simp only [pySlice, List.drop_succ_cons, List.drop_zero, Nat.add_sub_cancel]
    exact List.take_left' rfl
  have hdrop : (sqc :: (msg ++ sqc :: rest)).drop (msg.length + 1 + 1) = rest := by
    rw [show sqc :: (msg ++ sqc :: rest) = ((sqc :: msg) ++ [sqc]) ++ rest by simp]
    exact List.drop_left' (by simp)
  simp only [parse_line, hstrip, hf, hl]
  rw [if_neg (by simp), if_neg (by simp; decide)]
  rw [if_neg (show ¬(0 = msg.length + 1) by omega)]
  simp only [Nat.zero_add, hslice, List.take_zero, hdrop]
  rw [if_pos (by simp [pyStrip])]

lemma parse_fields_ok {msg post : List Char} {c : Caption}
    (h : parse_fields msg post = .ok c) :
    c.msg = msg ∧ (c.position = BOTTOM_CENTER ∨ c.position = TOP_CENTER) := by
  unfold parse_fields at h
  repeat' split at h
  all_goals try cases h
  · exact ⟨rfl, Or.inl rfl⟩
  · exact ⟨rfl, Or.inr rfl⟩

lemma parse_line_ok_shape {raw : List Char} {c : Caption}
    (h : parse_line raw = .ok (some c)) :
    ∃ i j, firstQuoteIdx (pyStrip raw) = some i ∧ lastQuoteIdx (pyStrip raw) = some j ∧
      i ≠ j ∧ c.msg = pySlice (pyStrip raw) (i + 1) j ∧
      (c.position = BOTTOM_CENTER ∨ c.position = TOP_CENTER) := by
  unfold parse_line at h
  split at h
  · cases h
  split at h
  · cases h
  split at h
  case _ i j hfst hlst =>
    split at h
    · cases h
    split at h
    case _ hij hpre =>
      cases hpf : parse_fields (pySlice (pyStrip raw) (i + 1) j)
          (pyStrip ((pyStrip raw).drop (j + 1))) with
      | error e => rw [hpf] at h; cases h
      | ok c' =>
        rw [hpf] at h
        simp only [Except.map, Except.ok.injEq, Option.some.injEq] at h
        subst h
        obtain ⟨hmsg, hpos⟩ := parse_fields_ok hpf
        exact ⟨i, j, hfst, hlst, hij, hmsg, hpos⟩
    · cases h
  case _ => cases h

lemma parse_cmd_file_mem {lines : List (List Char)} {caps : List Caption}
    (h : parse_cmd_file lines = .ok caps) :
    ∀ c ∈ caps, ∃ l, parse_line l = .ok (some c) := by
  induction lines generalizing caps with
  | nil => cases h; simp
  | cons l ls ih =>
    unfold parse_cmd_file at h
    split at h
    next r heq => cases h
    next heq => exact ih h
    next c0 heq =>
      cases hrec : parse_cmd_file ls with
      | error e => rw [hrec] at h; cases h
      | ok cs =>
        rw [hrec] at h
        simp only [Except.map, Except.ok.injEq] at h
        subst h
        intro c hc
        rcases List.mem_cons.mp hc with rfl | hc
        · exact ⟨l, heq⟩
        · exact ih hrec c hc

lemma parse_cmd_file_order {lines : List (List Char)} {caps : List Caption}
    (h : parse_cmd_file lines = .ok caps) :
    caps = lines.filterMap parsedCaption? := by
  induction lines generalizing caps with
  | nil => cases h; rfl
  | cons l ls ih =>
    unfold parse_cmd_file at h
    split at h
    next r heq => cases h
    next heq =>
      rw [List.filterMap_cons_none (show parsedCaption? l = none by
        simp [parsedCaption?, heq])]
      exact ih h
    next c0 heq =>
      cases hrec : parse_cmd_file ls with
      | error e => rw [hrec] at h; cases h
      | ok cs =>
        rw [hrec] at h
        simp only [Except.map, Except.ok.injEq] at h
        subst h
        rw [List.filterMap_cons_some (show parsedCaption? l = some c0 by
          simp [parsedCaption?, heq])]
        rw [← ih hrec]

lemma parse_cmd_file_fail {pre post : List (List Char)} {bad : List Char} {r : ParseRule}
    (h1 : ∀ l ∈ pre, ∃ v, parse_line l = .ok v)
    (h2 : parse_line bad = .error r) :
    parse_cmd_file (pre ++ bad :: post) = .error ⟨r, pyStrip bad⟩ := by
  induction pre with
  | nil => simp only [List.nil_append]; unfold parse_cmd_file; rw [h2]
  | cons l ls ih =>
    obtain ⟨v, hv⟩ := h1 l (List.mem_cons_self l ls)
    have ihh := ih fun l' hl' => h1 l' (List.mem_cons_of_mem l hl')
    simp only [List.cons_append]
    unfold parse_cmd_file
    rw [hv]
    cases v with
    | none => exact ihh
    | some c => rw [ihh]; rfl

lemma captionStage_ok {c : Caption}
    (h : c.position = BOTTOM_CENTER ∨ c.position = TOP_CENTER) :
    ∃ out, captionStage c = .ok out := by
  rcases h with h | h
  · refine ⟨dtBase c.msg c.color c.size bottom_center_str ++ [':'] ++
      enable_str c.start_sec c.end_sec, ?_⟩
    simp [captionStage, make_drawtext_string, h]
  · refine ⟨dtBase c.msg c.color c.size top_center_str ++ [':'] ++
      enable_str c.start_sec c.end_sec, ?_⟩
    simp [captionStage, make_drawtext_string, h,
      show ¬TOP_CENTER = BOTTOM_CENTER by decide]

lemma mapM_captionStage_ok {caps : List Caption}
    (h : ∀ c ∈ caps, ∃ out, captionStage c = .ok out) :
    ∃ ss, caps.mapM captionStage = .ok ss ∧ ss.length = caps.length := by
  induction caps with
  | nil => exact ⟨[], rfl, rfl⟩
  | cons c cs ih =>
    obtain ⟨o, ho⟩ := h c (List.mem_cons_self c cs)
    obtain ⟨ss, hss, hlen⟩ := ih fun c' hc' => h c' (List.mem_cons_of_mem c hc')
    refine ⟨o :: ss, ?_, by simp [hlen]⟩
    rw [List.mapM_cons, ho, hss]
    rfl

deriving instance DecidableEq for Except

/-- A line whose single-quoted message contains the escape sequence
backslash-quote: `'a\'b':red:48:TOP:0-5`. -/
def c1Line : List Char := [sqc, 'a', bsc, sqc, 'b', sqc] ++ ":red:48:TOP:0-5".data

/-- A line whose double quote comes first but which also contains a single
quote: `"don't":red:48:TOP:0-5`. -/
def c2Line : List Char := [dqc, 'd', 'o', 'n', sqc, 't', dqc] ++ ":red:48:TOP:0-5".data

/-- A line whose size field is `0`. -/
def c3Line : List Char := [sqc, 'h', 'i', sqc] ++ ":red:0:TOP:0-5".data

/-- A line whose quoted message contains `:` and with exactly three `:`
characters after the closing quote: `'a:b':red:48:TOP`. -/
def c10Line : List Char := [sqc, 'a', ':', 'b', sqc] ++ ":red:48:TOP".data

/-- Claim C1, counterexample: the code does not unescape; the escaped quote
sequence in `'a\'b'` survives verbatim in the parsed message, which is
therefore not the unescaped `a'b`. -/
theorem C1_counterexample :
    parse_cmd_file [c1Line] =
      .ok [⟨['a', bsc, sqc, 'b'], "red".data, 48, TOP_CENTER, 0, 5⟩] ∧
    (['a', bsc, sqc, 'b'] : List Char) ≠ ['a', sqc, 'b'] := by
  constructor
  · decide
  · decide

/-- Claim C2, counterexample: on `c2Line` the first quote character of the
line is the double quote (index 0) and the line has a matched pair of double
quotes (indices 0 and 6), yet the parser selects the single-quote style
(the apostrophe of `don't`), finds only one such quote, and rejects the
line instead of returning the message between the double quotes. -/
theorem C2_counterexample :
    pyFind c2Line dqc = some 0 ∧ pyFind c2Line sqc = some 4 ∧
    pyRfind c2Line dqc = some 6 ∧
    parse_cmd_file [c2Line] = .error ⟨.missingOrUnmatchedQuote, c2Line⟩ := by
  refine ⟨by decide, by decide, by decide, by decide⟩

/-- Claim C3, counterexample: a size field of `0` is accepted by the parser,
so not every returned `Caption` has positive size. -/
theorem C3_counterexample :
    parse_cmd_file [c3Line] =
      .ok [⟨"hi".data, "red".data, 0, TOP_CENTER, 0, 5⟩] ∧ ¬(0 : Int) > 0 := by
  refine ⟨by decide, by decide⟩

/-- Claim C10, counterexample: `c10Line` has a quoted message containing `:`
and exactly three `:` characters after the closing quote, yet the parser
rejects it with the field-count rule (it needs the separator colon plus
three more, i.e. four colons after the closing quote). -/
theorem C10_counterexample :
    (':' ∈ ['a', ':', 'b']) ∧ List.count ':' ":red:48:TOP".data = 3 ∧
    parse_cmd_file [c10Line] = .error ⟨.wrongFieldCount, c10Line⟩ := by
  refine ⟨by decide, by decide, by decide⟩

/-- Claim C1 (amended): for every parsed caption the message is the raw
substring strictly between the first and last quote positions of the line —
escaped quote sequences are preserved verbatim, not unescaped. -/
theorem C1_message_raw_slice {raw : List Char} {c : Caption}
    (h : parse_line raw = .ok (some c)) :
    ∃ i j, firstQuoteIdx (pyStrip raw) = some i ∧
      lastQuoteIdx (pyStrip raw) = some j ∧
      c.msg = pySlice (pyStrip raw) (i + 1) j := by
  obtain ⟨i, j, h1, h2, _, h4, _⟩ := parse_line_ok_shape h
  exact ⟨i, j, h1, h2, h4⟩

theorem C1_message_raw_slice_witness :
    parse_line c1Line =
      .ok (some ⟨['a', bsc, sqc, 'b'], "red".data, 48, TOP_CENTER, 0, 5⟩) ∧
    ∃ i j, firstQuoteIdx (pyStrip c1Line) = some i ∧
      lastQuoteIdx (pyStrip c1Line) = some j ∧
      (⟨['a', bsc, sqc, 'b'], "red".data, 48, TOP_CENTER, 0, 5⟩ : Caption).msg =
        pySlice (pyStrip c1Line) (i + 1) j :=
  ⟨by decide, C1_message_raw_slice (by decide)⟩

/-- Claim C2 (amended): the delimiter style is not first-seen but
single-quote-takes-precedence; double quotes delimit the message only when
the line contains no single quote at all, and then the message is the text
between the first and last double quote. -/
theorem C2_single_quote_precedence {raw : List Char} {c : Caption}
    (hs : sqc ∉ pyStrip raw) (h : parse_line raw = .ok (some c)) :
    ∃ i j, pyFind (pyStrip raw) dqc = some i ∧ pyRfind (pyStrip raw) dqc = some j ∧
      i ≠ j ∧ c.msg = pySlice (pyStrip raw) (i + 1) j := by
  obtain ⟨i, j, h1, h2, h3, h4, _⟩ := parse_line_ok_shape h
  unfold firstQuoteIdx at h1
  rw [pyFind_eq_none.mpr hs] at h1
  unfold lastQuoteIdx at h2
  rw [pyRfind_eq_none.mpr hs] at h2
  exact ⟨i, j, h1, h2, h3, h4⟩

/-- A single-quote-free double-quoted line used to witness C2. -/
def c2wLine : List Char := [dqc] ++ "ok".data ++ [dqc] ++ ":blue:30:BOTTOM:1-2".data

theorem C2_single_quote_precedence_witness :
    (sqc ∉ pyStrip c2wLine) ∧
    parse_line c2wLine =
      .ok (some ⟨"ok".data, "blue".data, 30, BOTTOM_CENTER, 1, 2⟩) ∧
    ∃ i j, pyFind (pyStrip c2wLine) dqc = some i ∧
      pyRfind (pyStrip c2wLine) dqc = some j ∧ i ≠ j ∧
      (⟨"ok".data, "blue".data, 30, BOTTOM_CENTER, 1, 2⟩ : Caption).msg =
        pySlice (pyStrip c2wLine) (i + 1) j :=
  ⟨by decide, by decide, C2_single_quote_precedence (by decide) (by decide)⟩

/-- Claim C3 (amended): the size field is accepted exactly when it parses as
an integer — any integer, zero and negatives included; `InvalidSize` is the
outcome only of integer-parse failure, so no positivity holds. -/
theorem C3_size_any_integer (tok : List Char)
    (h1 : sqc ∉ tok) (h2 : ':' ∉ tok) :
    parse_line (sqc :: ("hi".data ++ sqc ::
        (':' :: ("red:".data ++ tok ++ ":TOP:0-5".data)))) =
      (match pyInt (pyStrip tok) with
        | none => .error ParseRule.invalidSize
        | some n => .ok (some ⟨"hi".data, "red".data, n, TOP_CENTER, 0, 5⟩)) := by
  have hrest_sq : sqc ∉ ':' :: ("red:".data ++ tok ++ ":TOP:0-5".data) := by
    intro hm
    rcases List.mem_cons.mp hm with h | hm
    · exact absurd h (by decide)
    rcases List.mem_append.mp hm with hm | hm
    · rcases List.mem_append.mp hm with hm | hm
      · exact absurd hm (by decide)
      · exact h1 hm
    · exact absurd hm (by decide)
  have hlast : (':' :: ("red:".data ++ tok ++ ":TOP:0-5".data)).getLast? = some '5' := by
    rw [show ':' :: ("red:".data ++ tok ++ ":TOP:0-5".data) =
      ((':' :: "red:".data) ++ tok) ++ ":TOP:0-5".data by simp]
    rw [List.getLast?_append, show ":TOP:0-5".data.getLast? = some '5' from rfl]
    rfl
  have hstrip := pyStrip_quoted "hi".data
    (':' :: ("red:".data ++ tok ++ ":TOP:0-5".data)) '5' hlast (by decide)
  have happ := parse_line_quoted "hi".data
    (':' :: ("red:".data ++ tok ++ ":TOP:0-5".data)) hrest_sq hstrip
  rw [happ]
  have hstriprest : pyStrip (':' :: ("red:".data ++ tok ++ ":TOP:0-5".data)) =
      ':' :: ("red:".data ++ tok ++ ":TOP:0-5".data) := by
    apply pyStrip_eq_self
    · intro a ha
      rw [List.head?_cons, Option.some.injEq] at ha
      subst ha; decide
    · intro a ha
      rw [hlast, Option.some.injEq] at ha
      subst ha; decide
  rw [hstriprest]
  have hlast2 : ("red:".data ++ tok ++ ":TOP:0-5".data).getLast? = some '5' := by
    rw [show "red:".data ++ tok ++ ":TOP:0-5".data =
      ("red:".data ++ tok) ++ ":TOP:0-5".data by simp]
    rw [List.getLast?_append, show ":TOP:0-5".data.getLast? = some '5' from rfl]
    rfl
  have hstrip2 : pyStrip ("red:".data ++ tok ++ ":TOP:0-5".data) =
      "red:".data ++ tok ++ ":TOP:0-5".data := by
    apply pyStrip_eq_self
    · intro a ha
      rw [show "red:".data ++ tok ++ ":TOP:0-5".data =
        'r' :: ("ed:".data ++ tok ++ ":TOP:0-5".data) by simp] at ha
      rw [List.head?_cons, Option.some.injEq] at ha
      subst ha; decide
    · intro a ha
      rw [hlast2, Option.some.injEq] at ha
      subst ha; decide
  have hcount : List.count ':' ("red:".data ++ tok ++ ":TOP:0-5".data) = 3 := by
    rw [show "red:".data ++ tok ++ ":TOP:0-5".data =
      "red:".data ++ (tok ++ ":TOP:0-5".data) by simp]
    rw [List.count_append, List.count_append]
    rw [List.count_eq_zero.mpr h2]
    decide
  have hsplit : pySplit ':' ("red:".data ++ tok ++ ":TOP:0-5".data) =
      ["red".data, tok, "TOP".data, "0-5".data] := by
    rw [show "red:".data ++ tok ++ ":TOP:0-5".data =
      "red".data ++ ':' :: (tok ++ ':' :: "TOP:0-5".data) by simp]
    rw [pySplit_append (by decide), pySplit_append h2]
    rw [show pySplit ':' "TOP:0-5".data = ["TOP".data, "0-5".data] from by decide]
  simp only [parse_fields, hstrip2, hcount, hsplit, if_pos]
  cases hpi : pyInt (pyStrip tok) with
  | none => rfl
  | some n => rfl

theorem C3_size_any_integer_witness :
    (sqc ∉ "-5".data) ∧ (':' ∉ "-5".data) ∧
    parse_line (sqc :: ("hi".data ++ sqc ::
        (':' :: ("red:".data ++ "-5".data ++ ":TOP:0-5".data)))) =
      (match pyInt (pyStrip "-5".data) with
        | none => .error ParseRule.invalidSize
        | some n => .ok (some ⟨"hi".data, "red".data, n, TOP_CENTER, 0, 5⟩)) :=
  ⟨by decide, by decide, C3_size_any_integer "-5".data (by decide) (by decide)⟩

/-- Claim C10 (amended): colon characters inside the quoted message are
invisible to the field-count check — which counts only colons after the
closing quote and needs the separator colon plus exactly three more — and
the message, colons included, is preserved verbatim in the parsed caption. -/
theorem C10_msg_colons_preserved (msg : List Char) (_h : ':' ∈ msg) :
    parse_line (sqc :: (msg ++ sqc :: (':' :: "red:48:TOP:0-5".data))) =
      .ok (some ⟨msg, "red".data, 48, TOP_CENTER, 0, 5⟩) := by
  have hstrip := pyStrip_quoted msg (':' :: "red:48:TOP:0-5".data) '5'
    (by decide) (by decide)
  rw [parse_line_quoted msg (':' :: "red:48:TOP:0-5".data) (by decide) hstrip]
  rfl

theorem C10_msg_colons_preserved_witness :
    (':' ∈ "a:b".data) ∧
    parse_line (sqc :: ("a:b".data ++ sqc :: (':' :: "red:48:TOP:0-5".data))) =
      .ok (some ⟨"a:b".data, "red".data, 48, TOP_CENTER, 0, 5⟩) :=
  ⟨by decide, C10_msg_colons_preserved "a:b".data (by decide)⟩

/-- Claim C4: every per-caption stage string embeds the caption's four
structured fields — its color as `fontcolor=<color>`, its size as
`fontsize=<size>`, the fixed horizontally-centered anchor selected by its
position (`y=40` from the top edge for TOP, `y=h-th-40` from the bottom edge
accounting for text height for BOTTOM), and an appended visibility clause
`enable='between(t,start_sec,end_sec)'`, present for every caption because a
`Caption` always carries both time bounds. -/
theorem C4_stage_fields (c : Caption)
    (h : c.position = BOTTOM_CENTER ∨ c.position = TOP_CENTER) :
    ∃ out, captionStage c = .ok out ∧
      (∃ a b, out = a ++ ("fontcolor=".data ++ c.color) ++ b) ∧
      (∃ a b, out = a ++ ("fontsize=".data ++ intChars c.size) ++ b) ∧
      (c.position = TOP_CENTER → ∃ a b, out = a ++ top_center_str ++ b) ∧
      (c.position = BOTTOM_CENTER → ∃ a b, out = a ++ bottom_center_str ++ b) ∧
      (∃ a, out = a ++ enable_str c.start_sec c.end_sec) := by
  rcases h with h | h
  · refine ⟨dtBase c.msg c.color c.size bottom_center_str ++ [':'] ++
      enable_str c.start_sec c.end_sec, ?_, ?_, ?_, ?_, ?_, ?_⟩
    · simp [captionStage, make_drawtext_string, h]
    · exact ⟨"drawtext=fontfile=".data ++ fontfile_str ++ ":text=".data ++ [sqc] ++
        c.msg ++ [sqc] ++ [':'],
        [':'] ++ ("fontsize=".data ++ intChars c.size) ++ [':'] ++ box_str ++ [':'] ++
          bottom_center_str ++ [':'] ++ enable_str c.start_sec c.end_sec,
        by simp [dtBase, List.append_assoc]⟩
    · exact ⟨"drawtext=fontfile=".data ++ fontfile_str ++ ":text=".data ++ [sqc] ++
        c.msg ++ [sqc] ++ [':'] ++ ("fontcolor=".data ++ c.color) ++ [':'],
        [':'] ++ box_str ++ [':'] ++ bottom_center_str ++ [':'] ++
          enable_str c.start_sec c.end_sec,
        by simp [dtBase, List.append_assoc]⟩
    · intro h'
      rw [h] at h'
      exact absurd h' (by decide)
    · intro _
      exact ⟨"drawtext=fontfile=".data ++ fontfile_str ++ ":text=".data ++ [sqc] ++
        c.msg ++ [sqc] ++ [':'] ++ ("fontcolor=".data ++ c.color) ++ [':'] ++
          ("fontsize=".data ++ intChars c.size) ++ [':'] ++ box_str ++ [':'],
        [':'] ++ enable_str c.start_sec c.end_sec,
        by simp [dtBase, List.append_assoc]⟩
    · exact ⟨dtBase c.msg c.color c.size bottom_center_str ++ [':'],
        by simp [List.append_assoc]⟩
  · refine ⟨dtBase c.msg c.color c.size top_center_str ++ [':'] ++
      enable_str c.start_sec c.end_sec, ?_, ?_, ?_, ?_, ?_, ?_⟩
    · simp [captionStage, make_drawtext_string, h,
        show ¬TOP_CENTER = BOTTOM_CENTER by decide]
    · exact ⟨"drawtext=fontfile=".data ++ fontfile_str ++ ":text=".data ++ [sqc] ++
        c.msg ++ [sqc] ++ [':'],
        [':'] ++ ("fontsize=".data ++ intChars c.size) ++ [':'] ++ box_str ++ [':'] ++
          top_center_str ++ [':'] ++ enable_str c.start_sec c.end_sec,
        by simp [dtBase, List.append_assoc]⟩
    · exact ⟨"drawtext=fontfile=".data ++ fontfile_str ++ ":text=".data ++ [sqc] ++
        c.msg ++ [sqc] ++ [':'] ++ ("fontcolor=".data ++ c.color) ++ [':'],
        [':'] ++ box_str ++ [':'] ++ top_center_str ++ [':'] ++
          enable_str c.start_sec c.end_sec,
        by simp [dtBase, List.append_assoc]⟩
    · intro _
      exact ⟨"drawtext=fontfile=".data ++ fontfile_str ++ ":text=".data ++ [sqc] ++
        c.msg ++ [sqc] ++ [':'] ++ ("fontcolor=".data ++ c.color) ++ [':'] ++
          ("fontsize=".data ++ intChars c.size) ++ [':'] ++ box_str ++ [':'],
        [':'] ++ enable_str c.start_sec c.end_sec,
        by simp [dtBase, List.append_assoc]⟩
    · intro h'
      rw [h] at h'
      exact absurd h' (by decide)
    · exact ⟨dtBase c.msg c.color c.size top_center_str ++ [':'],
        by simp [List.append_assoc]⟩

/-- Demonstration caption for the C4 witness. -/
def capDemo4 : Caption := ⟨"Hi".data, "red".data, 48, BOTTOM_CENTER, 5, 10⟩

theorem C4_stage_fields_witness :
    (capDemo4.position = BOTTOM_CENTER ∨ capDemo4.position = TOP_CENTER) ∧
    ∃ out, captionStage capDemo4 = .ok out ∧
      (∃ a b, out = a ++ ("fontcolor=".data ++ capDemo4.color) ++ b) ∧
      (∃ a b, out = a ++ ("fontsize=".data ++ intChars capDemo4.size) ++ b) ∧
      (capDemo4.position = TOP_CENTER → ∃ a b, out = a ++ top_center_str ++ b) ∧
      (capDemo4.position = BOTTOM_CENTER → ∃ a b, out = a ++ bottom_center_str ++ b) ∧
      (∃ a, out = a ++ enable_str capDemo4.start_sec capDemo4.end_sec) :=
  ⟨Or.inl rfl, C4_stage_fields capDemo4 (Or.inl rfl)⟩

/-- Claim C5: with no output path the assembled command is exactly
`[ffplay, -i, input, -vf, "<filter>"]`; with an output path it is
`[ffmpeg, -y (present iff overwrite, right after the tool name), -i, input,
-vf, "<filter>", -codec:a, copy, output]` — the filter expression wrapped in
one pair of double quotes in both forms. -/
theorem C5_assemble (input : List Char) (args : List Caption) (ow : Bool)
    (f : List Char) (h : make_drawtext_array_string args = .ok f) :
    make_full_cmd_arr input none args ow =
      .ok ["ffplay".data, "-i".data, input, "-vf".data, [dqc] ++ f ++ [dqc]] ∧
    ∀ o, make_full_cmd_arr input (some o) args ow =
      .ok (["ffmpeg".data] ++ (if ow then ["-y".data] else []) ++
        ["-i".data, input, "-vf".data, [dqc] ++ f ++ [dqc],
          "-codec:a".data, "copy".data, o]) := by
  constructor
  · unfold make_full_cmd_arr
    rw [h]
  · intro o
    unfold make_full_cmd_arr
    rw [h]

/-- Demonstration caption for the C5 witness. -/
def capDemo5 : Caption := ⟨"Hi".data, "red".data, 48, BOTTOM_CENTER, 5, 10⟩

/-- The filter expression produced for `capDemo5`. -/
def fDemo5 : List Char :=
  dtBase "Hi".data "red".data 48 bottom_center_str ++ [':'] ++ enable_str 5 10

set_option maxRecDepth 8192 in
theorem C5_assemble_witness :
    make_drawtext_array_string [capDemo5] = .ok fDemo5 ∧
    (make_full_cmd_arr "in.mp4".data none [capDemo5] true =
      .ok ["ffplay".data, "-i".data, "in.mp4".data, "-vf".data,
        [dqc] ++ fDemo5 ++ [dqc]] ∧
    ∀ o, make_full_cmd_arr "in.mp4".data (some o) [capDemo5] true =
      .ok (["ffmpeg".data] ++ (if true then ["-y".data] else []) ++
        ["-i".data, "in.mp4".data, "-vf".data, [dqc] ++ fDemo5 ++ [dqc],
          "-codec:a".data, "copy".data, o])) :=
  ⟨by decide, C5_assemble "in.mp4".data [capDemo5] true fDemo5 (by decide)⟩

lemma parse_line_skip {l : List Char}
    (h : pyStrip l = [] ∨ (pyStrip l).head? = some '#') : parse_line l = .ok none := by
  unfold parse_line
  rcases h with h | h
  · rw [if_pos h]
  · by_cases hnil : pyStrip l = []
    · rw [if_pos hnil]
    · rw [if_neg hnil, if_pos h]

lemma parse_cmd_file_skips : ∀ lines : List (List Char),
    (∀ l ∈ lines, pyStrip l = [] ∨ (pyStrip l).head? = some '#') →
    parse_cmd_file lines = .ok [] := by
  intro lines
  induction lines with
  | nil => intro _; rfl
  | cons l ls ih =>
    intro h
    unfold parse_cmd_file
    rw [parse_line_skip (h l (List.mem_cons_self l ls))]
    exact ih fun l' hl' => h l' (List.mem_cons_of_mem l hl')

/-- Claim C7: a file consisting only of blank lines and lines whose first
non-whitespace character is `#` parses to the empty caption sequence, and
the builder fails on an empty caption sequence. -/
theorem C7_comments_and_empty (lines : List (List Char))
    (h : ∀ l ∈ lines, pyStrip l = [] ∨ (pyStrip l).head? = some '#') :
    parse_cmd_file lines = .ok [] ∧
    make_drawtext_array_string [] = .error "No arguments passed".data :=
  ⟨parse_cmd_file_skips lines h, rfl⟩

theorem C7_comments_and_empty_witness :
    (∀ l ∈ ["# note".data, "   ".data, ([] : List Char)],
      pyStrip l = [] ∨ (pyStrip l).head? = some '#') ∧
    (parse_cmd_file ["# note".data, "   ".data, ([] : List Char)] = .ok [] ∧
      make_drawtext_array_string [] = .error "No arguments passed".data) :=
  ⟨by decide, C7_comments_and_empty _ (by decide)⟩

/-- Claim C8: the first offending line aborts parsing of the whole file —
no captions are returned for any suffix and the failure carries the
violated rule together with the (stripped) text of that line. -/
theorem C8_fail_fast (pre post : List (List Char)) (bad : List Char) (r : ParseRule)
    (h1 : ∀ l ∈ pre, ∃ v, parse_line l = .ok v)
    (h2 : parse_line bad = .error r) :
    parse_cmd_file (pre ++ bad :: post) = .error ⟨r, pyStrip bad⟩ :=
  parse_cmd_file_fail h1 h2

/-- A well-formed line preceding the bad line in the C8 witness. -/
def c8Good : List Char := sqc :: "ok".data ++ sqc :: ":red:48:TOP:0-5".data

/-- An unquoted (hence rejected) line for the C8 witness. -/
def c8Bad : List Char := "foo:red:48:TOP:0-5".data

theorem C8_fail_fast_witness :
    (∀ l ∈ [c8Good], ∃ v, parse_line l = .ok v) ∧
    parse_line c8Bad = .error .missingOrUnmatchedQuote ∧
    parse_cmd_file ([c8Good] ++ c8Bad :: [c8Good]) =
      .error ⟨.missingOrUnmatchedQuote, pyStrip c8Bad⟩ := by
  have h1 : ∀ l ∈ [c8Good], ∃ v, parse_line l = .ok v := by
    intro l hl
    rw [List.mem_singleton] at hl
    subst hl
    exact ⟨some ⟨"ok".data, "red".data, 48, TOP_CENTER, 0, 5⟩, by decide⟩
  exact ⟨h1, by decide, C8_fail_fast [c8Good] [c8Good] c8Bad
    .missingOrUnmatchedQuote h1 (by decide)⟩

/-- Claim C9: on parser output the builder's unknown-position branch is
unreachable — every caption produced by `parse_cmd_file` has position
`BOTTOM_CENTER` or `TOP_CENTER`, so `make_drawtext_string` succeeds. -/
theorem C9_no_unknown_position (lines : List (List Char)) (caps : List Caption)
    (h : parse_cmd_file lines = .ok caps) :
    ∀ c ∈ caps, ∃ out, captionStage c = .ok out := by
  intro c hc
  obtain ⟨l, hl⟩ := parse_cmd_file_mem h c hc
  obtain ⟨_, _, _, _, _, _, hpos⟩ := parse_line_ok_shape hl
  exact captionStage_ok hpos

/-- Demonstration line for the C9 witness. -/
def c9Line : List Char := sqc :: "hey".data ++ sqc :: ":blue:30:BOTTOM:2-9".data

theorem C9_no_unknown_position_witness :
    parse_cmd_file [c9Line] =
      .ok [⟨"hey".data, "blue".data, 30, BOTTOM_CENTER, 2, 9⟩] ∧
    ∀ c ∈ [(⟨"hey".data, "blue".data, 30, BOTTOM_CENTER, 2, 9⟩ : Caption)],
      ∃ out, captionStage c = .ok out :=
  ⟨by decide, C9_no_unknown_position [c9Line] _ (by decide)⟩

/-- Claim C6: parsing yields the captions in file-line order (each valid
line contributing its caption in sequence), and on a nonempty result the
builder produces exactly the per-caption stage strings — one per caption,
in that order — joined with `,`. -/
theorem C6_order_and_join (lines : List (List Char)) (caps : List Caption)
    (h : parse_cmd_file lines = .ok caps) :
    caps = lines.filterMap parsedCaption? ∧
    (caps ≠ [] → ∃ ss, caps.mapM captionStage = .ok ss ∧
      ss.length = caps.length ∧
      make_drawtext_array_string caps = .ok (List.intercalate [','] ss)) := by
  refine ⟨parse_cmd_file_order h, fun hne => ?_⟩
  have hall : ∀ c ∈ caps, ∃ out, captionStage c = .ok out := by
    intro c hc
    obtain ⟨l, hl⟩ := parse_cmd_file_mem h c hc
    obtain ⟨_, _, _, _, _, _, hpos⟩ := parse_line_ok_shape hl
    exact captionStage_ok hpos
  obtain ⟨ss, hss, hlen⟩ := mapM_captionStage_ok hall
  refine ⟨ss, hss, hlen, ?_⟩
  unfold make_drawtext_array_string make_drawtext_array
  rw [if_neg (fun hh => hne (List.isEmpty_iff.mp hh)), hss]
  rfl

/-- First demonstration line for the C6 witness. -/
def c6LineA : List Char := sqc :: "one".data ++ sqc :: ":red:48:BOTTOM:5-10".data

/-- Second demonstration line for the C6 witness. -/
def c6LineB : List Char := sqc :: "two".data ++ sqc :: ":green:48:TOP:0-5".data

/-- The captions parsed from the C6 witness file. -/
def c6Caps : List Caption :=
  [⟨"one".data, "red".data, 48, BOTTOM_CENTER, 5, 10⟩,
   ⟨"two".data, "green".data, 48, TOP_CENTER, 0, 5⟩]

set_option maxRecDepth 8192 in
theorem C6_order_and_join_witness :
    parse_cmd_file [c6LineA, "# note".data, c6LineB] = .ok c6Caps ∧
    (c6Caps = [c6LineA, "# note".data, c6LineB].filterMap parsedCaption? ∧
    (c6Caps ≠ [] → ∃ ss, c6Caps.mapM captionStage = .ok ss ∧
      ss.length = c6Caps.length ∧
      make_drawtext_array_string c6Caps = .ok (List.intercalate [','] ss))) :=
  ⟨by decide, C6_order_and_join [c6LineA, "# note".data, c6LineB] c6Caps (by decide)⟩
